import Mathlib

/-!
Verification of the warmthly-admin email relay against its design spec.

The JavaScript handlers under `api/` are shallowly embedded as pure Lean
functions.  Machine times (Date.now()) are modelled as `Nat` milliseconds,
JS strings as Lean `String` (or `List Nat` of bytes where the code works on
byte buffers), absent/undefined fields as `Option`, and thrown exceptions as
`Except` or explicit outcome constructors.  External collaborators that the
spec places out of scope (the JSON codec, the token library, the webhook
verifier, the Redis wire protocol) are passed in as explicit parameters or
modelled from the spec's interface description, as noted at each definition.
-/

namespace WarmthlyAdmin

/-! ## JavaScript string primitives

`String.prototype.trim` and the regex class `\s` use the same whitespace
set (ASCII whitespace plus the Unicode space separators, NBSP, BOM and the
line/paragraph separators). -/

def jsWhitespaceChar (c : Char) : Bool :=
  c = ' ' || c = '\t' || c = '\n' || c = '\r' || c = '\x0b' || c = '\x0c' ||
  c = '\u00A0' || c = '\u1680' ||
  ('\u2000' ≤ c && c ≤ '\u200A') ||
  c = '\u2028' || c = '\u2029' || c = '\u202F' || c = '\u205F' ||
  c = '\u3000' || c = '\uFEFF'

def trimLeading (cs : List Char) : List Char :=
  cs.dropWhile jsWhitespaceChar

/-- `String.prototype.trim`, on the underlying character list. -/
def jsTrimList (cs : List Char) : List Char :=
  ((trimLeading ((trimLeading cs).reverse)).reverse)

def jsTrim (s : String) : String :=
  ⟨jsTrimList s.data⟩

/-- `haystack.includes(needle)` (JS substring containment). -/
def listHasRun (needle : List Char) : List Char → Bool
  | [] => needle.isEmpty
  | c :: rest => needle.isPrefixOf (c :: rest) || listHasRun needle rest

def strIncludes (hay needle : String) : Bool :=
  listHasRun needle.data hay.data

/-! ## Credential Verifier: constant-time password comparison

From `api/login.js`, `constantTimeCompare(a, b)`.  The candidate and
configured passwords are modelled as the byte sequences the code hands to
`Buffer.from(·, 'utf8')`.  `!a` is true in JS exactly for the empty string
(given string inputs), and `crypto.timingSafeEqual` on two equal-length
buffers returns byte-for-byte equality and throws only when the buffer
lengths differ — a case the `a.length !== b.length` gate precludes for byte
inputs; the surrounding try/catch converts any such failure to `false`. -/

def constantTimeCompare (a b : List Nat) : Bool :=
  if a.isEmpty || b.isEmpty then false
  else if a.length ≠ b.length then false
  else a == b

/-! ## Rate Governor

From `api/rate-limit.js`.  The store is a map keyed by
`identifier:url`; every claim quantifies over a single such key, so the
state is the `Option RateRecord` held at that one key.  `cleanup()` walks
the whole map deleting entries whose `resetTime < now`; restricted to the
key under consideration it is the function `cleanupRecord` below (its
effect on other keys never touches this key's record or result). -/

structure RateRecord where
  count : Nat
  resetTime : Nat
deriving DecidableEq, Repr

structure RateResult where
  allowed : Bool
  remaining : Nat
  resetTime : Nat
  retryAfter : Option Nat
deriving DecidableEq, Repr

def cleanupRecord (now : Nat) : Option RateRecord → Option RateRecord
  | some r => if r.resetTime < now then none else some r
  | none => none

/-- `checkRateLimit` from `api/rate-limit.js`, at one fixed
`identifier:url` key.  `Math.ceil((record.resetTime - now) / 1000)` is
reached only when `now ≤ record.resetTime` (the reset branch fired
otherwise), where it equals the Nat ceiling division
`(resetTime - now + 999) / 1000`. -/
def checkRateLimit (windowMs maxReq now : Nat) (store : Option RateRecord) :
    RateResult × Option RateRecord :=
  let store := cleanupRecord now store
  match store with
  | some record =>
    if record.resetTime < now then
      -- window expired: reset the record
      let r : RateRecord := { count := 1, resetTime := now + windowMs }
      ({ allowed := true, remaining := maxReq - 1, resetTime := r.resetTime,
         retryAfter := none }, some r)
    else if record.count ≥ maxReq then
      -- limit exceeded: reject without mutating the record
      ({ allowed := false, remaining := 0, resetTime := record.resetTime,
         retryAfter := some ((record.resetTime - now + 999) / 1000) }, some record)
    else
      -- increment count
      let r : RateRecord := { record with count := record.count + 1 }
      ({ allowed := true, remaining := maxReq - r.count, resetTime := r.resetTime,
         retryAfter := none }, some r)
  | none =>
    -- create new record
    ({ allowed := true, remaining := maxReq - 1, resetTime := now + windowMs,
       retryAfter := none },
     some { count := 1, resetTime := now + windowMs })

/-- Run a sequence of requests (given their `Date.now()` values) through
`checkRateLimit`, threading the stored record. -/
def runRequests (windowMs maxReq : Nat) (ts : List Nat) (store : Option RateRecord) :
    List RateResult × Option RateRecord :=
  match ts with
  | [] => ([], store)
  | t :: rest =>
    let step := checkRateLimit windowMs maxReq t store
    let tail := runRequests windowMs maxReq rest step.2
    (step.1 :: tail.1, tail.2)

/-! ## Email Inbox Store

`EmailRecord` is the object built in `api/inbound-email.js` (`emailToStore`).
The JS fields `from` and `to` clash with Lean keywords, so they are named
`fromAddr` and `toAddr` here. -/

structure EmailRecord where
  id : String
  fromAddr : String
  toAddr : String
  subject : String
  receivedAt : String
deriving DecidableEq, Repr

/-- `client.lPush('emails', v)`: head insertion into the shared list. -/
def lPush (v : String) (store : List String) : List String :=
  v :: store

/-- State of the Redis key `emails`: absent, a list, or a value of another
type (on which list commands raise the WRONGTYPE error). -/
inductive EmailsKey where
  | missing
  | list (items : List String)
  | wrongType
deriving DecidableEq, Repr

/-- `client.lRange('emails', 0, 99)`: the first 100 elements from the head;
an absent key reads as an empty list; a key of the wrong type raises
Redis's WRONGTYPE error. -/
def lRangeEmails : EmailsKey → Except String (List String)
  | .missing => .ok []
  | .list items => .ok (items.take 100)
  | .wrongType => .error "WRONGTYPE Operation against a key holding the wrong kind of value"

/-- The fetch step of `getEmailsHandler` (`api/get-emails.js` lines
117-136): a WRONGTYPE / no-such-key store error is converted to an empty
read; any other store error is rethrown. -/
def fetchEmails (key : EmailsKey) : Except String (List String) :=
  match lRangeEmails key with
  | .ok l => .ok l
  | .error msg =>
    if strIncludes msg "WRONGTYPE" || strIncludes msg "no such key" then .ok []
    else .error msg

/-- The parse step of `getEmailsHandler` (lines 140-149): `JSON.parse` each
element, `null` on failure, then filter the `null`s out.  The JSON codec is
an out-of-scope collaborator, so it is passed in as `parse`. -/
def parsedEmails (parse : String → Option EmailRecord) (emails : List String) :
    List EmailRecord :=
  (emails.map parse).filterMap id

/-- The response body computed by `getEmailsHandler` (lines 117-157): fetch,
parse-and-drop, then the explicit `parsedEmails.reverse()` of line 154. -/
def getEmailsBody (parse : String → Option EmailRecord) (key : EmailsKey) :
    Except String (List EmailRecord) :=
  (fetchEmails key).map (fun emails => (parsedEmails parse emails).reverse)

/-! ## Inbound webhook handler

From `api/inbound-email.js`.  `resend.webhooks.verify` and `JSON.stringify`
are external collaborators, passed in through `InboundEnv`; `verify`
returning `none` models the thrown verification error. -/

/-- The `event.data` object of an `email.received` webhook; every field may
be absent.  A present-but-empty string is falsy to JS `||`, which the
`jsOr` helper reproduces. -/
structure InboundEmailData where
  email_id : Option String
  fromField : Option String
  toAddr : Option String
  subject : Option String
  created_at : Option String
deriving DecidableEq, Repr

/-- JS `x || d` for an optional string `x`: the default is used when the
field is absent or the empty string (both falsy). -/
def jsOr (x : Option String) (d : String) : String :=
  match x with
  | none => d
  | some s => if s = "" then d else s

/-- The `emailToStore` object built at `api/inbound-email.js` lines 187-193.
`now` is `Date.now()` (ms) and `nowIso` is `new Date().toISOString()`. -/
def buildEmailToStore (now : Nat) (nowIso : String) (d : InboundEmailData) :
    EmailRecord :=
  { id := jsOr d.email_id ("email-" ++ toString now)
    fromAddr := jsOr d.fromField "Unknown"
    toAddr := jsOr d.toAddr "Unknown"
    subject := jsOr d.subject "(No Subject)"
    receivedAt := jsOr d.created_at nowIso }

structure WebhookEvent where
  type : String
  data : Option InboundEmailData
deriving DecidableEq, Repr

structure InboundRequest where
  method : String
  rawBody : String
  svixId : Option String
  svixTimestamp : Option String
  svixSignature : Option String
deriving DecidableEq, Repr

structure InboundEnv where
  webhookSecret : Option String
  /-- `resend.webhooks.verify({body, headers, secret})`; `none` models the
  thrown verification error. -/
  verify : String → Option String → Option String → Option String → String →
    Option WebhookEvent
  /-- `JSON.stringify` on the record to store. -/
  serialize : EmailRecord → String
  now : Nat
  nowIso : String

structure InboundResponse where
  status : Nat
deriving DecidableEq, Repr

/-- The handler of `api/inbound-email.js` (method check, secret check,
signature verification, `email.received` processing, `lPush`), as a
function from the stored `emails` list to the response and the new list. -/
def inboundHandler (env : InboundEnv) (req : InboundRequest)
    (store : List String) : InboundResponse × List String :=
  if req.method ≠ "POST" then ({ status := 405 }, store)
  else
    match env.webhookSecret with
    | none => ({ status := 500 }, store)
    | some secret =>
      match env.verify req.rawBody req.svixId req.svixTimestamp
          req.svixSignature secret with
      | none => ({ status := 401 }, store)
      | some event =>
        if event.type = "email.received" then
          match event.data with
          | none => ({ status := 400 }, store)
          | some d =>
            let emailToStore := buildEmailToStore env.now env.nowIso d
            ({ status := 200 }, lPush (env.serialize emailToStore) store)
        else ({ status := 200 }, store)

/-! ## Outbound Email Sender

From the send-email handler source (`src/unnamed/part_000`):
`isEmptyHTML`, `isValidEmail` and `sendEmailHandler`.  The five regular
expressions of `emptyPatterns` are compiled by hand into total matchers on
character lists; each carries the regex it implements.  All five regexes
are `/i`-insensitive, which is modelled by lowercasing the trimmed input
and matching against lowercase literals. -/

/-- Strip a literal character sequence from the front; `none` when the
input does not start with it. -/
def stripLit : List Char → List Char → Option (List Char)
  | [], cs => some cs
  | _ :: _, [] => none
  | l :: ls, c :: cs => if c = l then stripLit ls cs else none

/-- Consume `\s*` (greedy, and the following matchers never need the
consumed whitespace back, so greedy consumption is complete). -/
def dropWs (cs : List Char) : List Char :=
  cs.dropWhile jsWhitespaceChar

/-- Consume the optional `\/?` of the `<br>` patterns. -/
def dropOptSlash : List Char → List Char
  | '/' :: rest => rest
  | cs => cs

/-- `/^<p>\s*<\/p>$/i` on the lowercased character list. -/
def matchEmptyP (cs : List Char) : Bool :=
  match stripLit "<p>".data cs with
  | none => false
  | some rest => dropWs rest = "</p>".data

/-- `/^<p><br\s*\/?><\/p>$/i` on the lowercased character list. -/
def matchBrP (cs : List Char) : Bool :=
  match stripLit "<p><br".data cs with
  | none => false
  | some rest => dropOptSlash (dropWs rest) = "></p>".data

/-- `/^<p>\s*<br\s*\/?>\s*<\/p>$/i` on the lowercased character list. -/
def matchWsBrP (cs : List Char) : Bool :=
  match stripLit "<p>".data cs with
  | none => false
  | some r =>
    match stripLit "<br".data (dropWs r) with
    | none => false
    | some r2 =>
      match dropOptSlash (dropWs r2) with
      | '>' :: r3 => dropWs r3 = "</p>".data
      | _ => false

/-- `/^<p>&nbsp;<\/p>$/i` on the lowercased character list. -/
def matchNbspP (cs : List Char) : Bool :=
  cs = "<p>&nbsp;</p>".data

/-- `/^<p>\s*&nbsp;\s*<\/p>$/i` on the lowercased character list. -/
def matchWsNbspP (cs : List Char) : Bool :=
  match stripLit "<p>".data cs with
  | none => false
  | some r =>
    match stripLit "&nbsp;".data (dropWs r) with
    | none => false
    | some r2 => dropWs r2 = "</p>".data

/-- The `emptyPatterns` array, as matchers on the lowercased trimmed
input. -/
def emptyPatterns : List (List Char → Bool) :=
  [matchEmptyP, matchBrP, matchWsBrP, matchNbspP, matchWsNbspP]

/-- `isEmptyHTML` on a string input (the `typeof === 'string'` branch). -/
def isEmptyHTMLStr (html : String) : Bool :=
  let trimmed := jsTrim html
  if trimmed = "" then true
  else emptyPatterns.any (fun p => p (trimmed.data.map Char.toLower))

/-- `isEmptyHTML(html)`: `none` models an absent (or non-string) value,
which the `!html || typeof html !== 'string'` gate maps to `true`. -/
def isEmptyHTML : Option String → Bool
  | none => true
  | some s => isEmptyHTMLStr s

/-- A character the email regex's `[^\s@]` class accepts. -/
def okEmailChar (c : Char) : Bool :=
  !jsWhitespaceChar c && c ≠ '@'

/-- Split at the first `'@'`: `some (before, after)`, or `none` when the
list has no `'@'`. -/
def splitAtAmp : List Char → Option (List Char × List Char)
  | [] => none
  | c :: rest =>
    if c = '@' then some ([], rest)
    else
      match splitAtAmp rest with
      | none => none
      | some (l, r) => some (c :: l, r)

/-- `/^[^\s@]+@[^\s@]+\.[^\s@]+$/.test cs`.  The regex's `@` necessarily
matches the first `'@'` of the input (the `[^\s@]+` before it admits no
`'@'`), the part before it must be nonempty over `[^\s@]`, and the part
after it must be `B.C` with `B`, `C` nonempty over `[^\s@]` — i.e. all its
characters in `[^\s@]` (which includes `'.'`) and some `'.'` at an
interior position, which is exactly a `'.'` surviving in
`(domain.drop 1).dropLast`. -/
def emailRegexTest (cs : List Char) : Bool :=
  match splitAtAmp cs with
  | none => false
  | some (localPart, domainPart) =>
    !localPart.isEmpty && localPart.all okEmailChar &&
    !domainPart.isEmpty && domainPart.all okEmailChar &&
    ((domainPart.drop 1).dropLast).contains '.'

/-- `isValidEmail(email)` for a string input: the `!email` gate rejects the
empty string, then the regex is applied to `email.trim()`. -/
def isValidEmail (email : String) : Bool :=
  if email = "" then false
  else emailRegexTest (jsTrim email).data

/-- Outcome of `sendEmailHandler` for a POST request: the `.send` payload
is what reaches `resend.emails.send` (recipient, sanitized subject, html). -/
inductive SendOutcome where
  | configError
  | validationError (msg : String)
  | send (toAddr subject html : String)
deriving DecidableEq, Repr

/-- The validation pipeline of `sendEmailHandler` (`src/unnamed/part_000`
lines 48-86), for a POST request.  The body fields are `Option String`
(`none` = absent or non-string, rejected by the `typeof` checks); a
present empty string is falsy to the `!to` / `!subject` gates. -/
def sendEmailHandler (apiKeyConfigured : Bool) (toField subject html : Option String) :
    SendOutcome :=
  if !apiKeyConfigured then .configError
  else
    match toField with
    | none => .validationError "Recipient email address is required."
    | some toStr =>
      if toStr = "" then .validationError "Recipient email address is required."
      else if !isValidEmail toStr then .validationError "Invalid email address format."
      else
        match subject with
        | none => .validationError "Email subject is required."
        | some subj =>
          if subj = "" || jsTrim subj = "" then .validationError "Email subject is required."
          else
            match html with
            | none => .validationError "Email body cannot be empty."
            | some h =>
              if isEmptyHTMLStr h then .validationError "Email body cannot be empty."
              else .send (jsTrim toStr) ⟨(jsTrim subj).data.take 200⟩ h

/-! ## Store Connection Manager

From `getRedisClient` in `api/get-emails.js` (the copy in
`api/inbound-email.js` is identical).  The module-level `redisClient`
variable is threaded explicitly; the outcome of the single awaited
`connect()` call is an oracle parameter. -/

structure RedisClient where
  isOpen : Bool
deriving DecidableEq, Repr

/-- The `reconnectStrategy` callback passed to `createClient` (lines 32-38):
the returned delay for a retry, or the terminal error that abandons
reconnection. -/
def reconnectStrategy (retries : Nat) : Except String Nat :=
  if retries > 3 then .error "Redis reconnection failed"
  else .ok (min (retries * 100) 3000)

inductive AcquireOutcome where
  | ok (c : RedisClient)
  | configError
  | connectError
deriving DecidableEq, Repr

/-- The no-reusable-connection path of `getRedisClient` (lines 19-72): the
missing-URL throw leaves the cached handle untouched; a fresh client is
constructed and connected; on connect failure `redisClient` is set to
`null` and the error propagates. -/
def connectFresh (redisUrl : Option String) (connectSucceeds : Bool)
    (cached : Option RedisClient) : AcquireOutcome × Option RedisClient :=
  match redisUrl with
  | none => (.configError, cached)
  | some _ =>
    if connectSucceeds then (.ok { isOpen := true }, some { isOpen := true })
    else (.connectError, none)

/-- `getRedisClient()`: reuse the cached handle when it reports itself
open, otherwise take the fresh-connection path. -/
def getRedisClient (redisUrl : Option String) (connectSucceeds : Bool)
    (cached : Option RedisClient) : AcquireOutcome × Option RedisClient :=
  match cached with
  | some c =>
    if c.isOpen then (.ok c, some c)
    else connectFresh redisUrl connectSucceeds cached
  | none => connectFresh redisUrl connectSucceeds cached

/-! ## Token lifecycle

Modelled from the spec: the token library (`jsonwebtoken`'s `sign` and
`verify`) is not part of this repository's sources — `api/login.js` only
shows the call `jwt.sign({user:'admin'}, jwtSecret, {expiresIn:'8h'})` and
`api/get-emails.js` the call `jwt.verify(token, jwtSecret)`.  Following
spec §4.3/§8: `issue(claims)` produces a signed token carrying
`{user:"admin"}` with 8-hour expiry; `verify` checks signature and expiry
(accepting at T+7h59m, rejecting at T+8h01m), failing with
`InvalidToken` or `ExpiredToken`.  The signature is modelled as the token
carrying the signing secret; times are in seconds. -/

structure SessionToken where
  user : String
  signedWith : String
  exp : Nat
deriving DecidableEq, Repr

inductive JwtError where
  | invalidToken
  | expiredToken
deriving DecidableEq, Repr

/-- Modelled from the spec: `jwt.sign(payload, secret, {expiresIn})`. -/
def jwtSign (user secret : String) (issuedAt expiresInSeconds : Nat) :
    SessionToken :=
  { user := user, signedWith := secret, exp := issuedAt + expiresInSeconds }

/-- The token issued on successful login (`api/login.js` lines 40-44):
payload `{user: 'admin'}`, expiry `'8h'`. -/
def issueLoginToken (secret : String) (issuedAt : Nat) : SessionToken :=
  jwtSign "admin" secret issuedAt (8 * 60 * 60)

/-- Modelled from the spec: `jwt.verify(token, secret)` — signature check
then expiry check, returning the claims. -/
def jwtVerify (tok : SessionToken) (secret : String) (now : Nat) :
    Except JwtError String :=
  if tok.signedWith ≠ secret then .error .invalidToken
  else if tok.exp ≤ now then .error .expiredToken
  else .ok tok.user

/-! ## Concrete sample data shared by the witnesses -/

def recA : EmailRecord :=
  { id := "A", fromAddr := "alice@example.org", toAddr := "desk@warmthly.org",
    subject := "first", receivedAt := "2026-01-01T00:00:00Z" }

def recB : EmailRecord :=
  { id := "B", fromAddr := "bob@example.org", toAddr := "desk@warmthly.org",
    subject := "second", receivedAt := "2026-01-02T00:00:00Z" }

/-- A concrete deserializer standing in for `JSON.parse` in witnesses:
two well-formed stored strings and everything else malformed. -/
def demoParse (s : String) : Option EmailRecord :=
  if s = "A" then some recA
  else if s = "B" then some recB
  else none

/-- A concrete webhook environment whose signature verification always
fails, for witnesses. -/
def demoEnvRejecting : InboundEnv :=
  { webhookSecret := some "whsec"
    verify := fun _ _ _ _ _ => none
    serialize := fun r => r.id
    now := 0
    nowIso := "1970-01-01T00:00:00.000Z" }

def demoRequest : InboundRequest :=
  { method := "POST", rawBody := "{}", svixId := some "msg_1"
    svixTimestamp := some "1700000000", svixSignature := some "v1,bad" }

/-! # Theorems -/

/-- C3: `constantTimeCompare` is a total Boolean function (never raises) that
returns `false` whenever the byte lengths differ, `false` whenever the byte
strings differ at all (in particular at any single byte), and returns `true`
only when the two byte strings are equal. -/
theorem constantTimeCompare_spec (a b : List Nat) :
    (a.length ≠ b.length → constantTimeCompare a b = false) ∧
    (a ≠ b → constantTimeCompare a b = false) ∧
    (constantTimeCompare a b = true → a = b) := by
  unfold constantTimeCompare
  by_cases h1 : a.isEmpty || b.isEmpty
  · simp [h1]
  · by_cases h2 : a.length = b.length
    · refine ⟨fun h => absurd h2 h, ?_, ?_⟩
      · intro hne
        simp only [h1, Bool.false_eq_true, if_false, h2, ne_eq,
          not_true_eq_false, if_true]
        exact beq_eq_false_iff_ne.mpr hne
      · intro hb
        simp only [h1, Bool.false_eq_true, if_false, h2, ne_eq,
          not_true_eq_false, if_true] at hb
        exact eq_of_beq hb
    · refine ⟨fun _ => ?_, fun _ => ?_, fun hb => ?_⟩
      · simp [h1, h2]
      · simp [h1, h2]
      · simp [h1, h2] at hb

/-- Witness for C3 at concrete byte strings. -/
theorem constantTimeCompare_spec_witness :
    constantTimeCompare [104, 105] [104, 105, 33] = false ∧
    constantTimeCompare [104, 105] [104, 106] = false ∧
    ([104, 105] : List Nat) = [104, 105] :=
  ⟨(constantTimeCompare_spec [104, 105] [104, 105, 33]).1 (by decide),
   (constantTimeCompare_spec [104, 105] [104, 106]).2.1 (by decide),
   (constantTimeCompare_spec [104, 105] [104, 105]).2.2 (by decide)⟩

/-- C5: the token issued on successful login carries the claim
`{user: "admin"}` signed with the shared secret and an 8-hour expiry;
verification with that secret succeeds at any time strictly before `T + 8h`
and fails with an expiry error at any time strictly after `T + 8h`. -/
theorem issueLoginToken_expiry (secret : String) (T t : Nat) :
    (issueLoginToken secret T).user = "admin" ∧
    (issueLoginToken secret T).signedWith = secret ∧
    (issueLoginToken secret T).exp = T + 8 * 60 * 60 ∧
    (t < T + 8 * 60 * 60 →
      jwtVerify (issueLoginToken secret T) secret t = .ok "admin") ∧
    (T + 8 * 60 * 60 < t →
      jwtVerify (issueLoginToken secret T) secret t = .error .expiredToken) := by
  refine ⟨rfl, rfl, rfl, ?_, ?_⟩ <;>
    intro h <;> simp [jwtVerify, issueLoginToken, jwtSign] <;> omega

/-- Witness for C5: a token issued at `T = 0` verifies at 7h59m and is
expired at 8h01m. -/
theorem issueLoginToken_expiry_witness :
    jwtVerify (issueLoginToken "secret" 0) "secret" 28740 = .ok "admin" ∧
    jwtVerify (issueLoginToken "secret" 0) "secret" 28860 =
      .error .expiredToken :=
  ⟨(issueLoginToken_expiry "secret" 0 28740).2.2.2.1 (by decide),
   (issueLoginToken_expiry "secret" 0 28860).2.2.2.2 (by decide)⟩

/-- C7: for every verified `email.received` event with a present data
object, ingestion builds the record and succeeds (status 200, one `lPush`);
a missing `from`/`to` is substituted with "Unknown", a missing `subject`
with "(No Subject)", and a missing provider id with `email-<Date.now()>`. -/
theorem inbound_ingestion_defaults (env : InboundEnv) (req : InboundRequest)
    (store : List String) (d : InboundEmailData) (ev : WebhookEvent)
    (secret : String) :
    (d.fromField = none → (buildEmailToStore env.now env.nowIso d).fromAddr = "Unknown") ∧
    (d.toAddr = none → (buildEmailToStore env.now env.nowIso d).toAddr = "Unknown") ∧
    (d.subject = none → (buildEmailToStore env.now env.nowIso d).subject = "(No Subject)") ∧
    (d.email_id = none →
      (buildEmailToStore env.now env.nowIso d).id = "email-" ++ toString env.now) ∧
    (req.method = "POST" → env.webhookSecret = some secret →
      env.verify req.rawBody req.svixId req.svixTimestamp req.svixSignature secret =
        some ev →
      ev.type = "email.received" → ev.data = some d →
      inboundHandler env req store =
        ({ status := 200 },
         lPush (env.serialize (buildEmailToStore env.now env.nowIso d)) store)) := by
  refine ⟨?_, ?_, ?_, ?_, ?_⟩
  · intro h; simp [buildEmailToStore, jsOr, h]
  · intro h; simp [buildEmailToStore, jsOr, h]
  · intro h; simp [buildEmailToStore, jsOr, h]
  · intro h; simp [buildEmailToStore, jsOr, h]
  · intro hm hs hv ht hd
    simp [inboundHandler, hm, hs, hv, ht, hd]

/-- Witness for C7: an all-fields-missing data object ingested at
`Date.now() = 1700`. -/
theorem inbound_ingestion_defaults_witness :
    (buildEmailToStore 1700 "iso" ⟨none, none, none, none, none⟩).fromAddr = "Unknown" ∧
    (buildEmailToStore 1700 "iso" ⟨none, none, none, none, none⟩).toAddr = "Unknown" ∧
    (buildEmailToStore 1700 "iso" ⟨none, none, none, none, none⟩).subject = "(No Subject)" ∧
    (buildEmailToStore 1700 "iso" ⟨none, none, none, none, none⟩).id = "email-" ++ toString 1700 :=
  have h' := inbound_ingestion_defaults
    { demoEnvRejecting with now := 1700, nowIso := "iso" } demoRequest []
    ⟨none, none, none, none, none⟩ ⟨"email.received", none⟩ "whsec"
  ⟨h'.1 rfl, h'.2.1 rfl, h'.2.2.1 rfl, h'.2.2.2.1 rfl⟩

/-- C9: `getRedisClient` returns a cached open connection immediately;
fails with the configuration error when no store address is configured
(leaving the cached handle as it was); its reconnect policy returns
`min(retries × 100, 3000)` ms for up to 3 retries and abandons beyond; and
on connect failure it discards the cached handle (the next call starts
from `none`, i.e. attempts a fresh connection) and propagates the error. -/
theorem getRedisClient_spec :
    (∀ url cs c, c.isOpen = true →
      getRedisClient url cs (some c) = (.ok c, some c)) ∧
    (∀ cs, getRedisClient none cs none = (.configError, none)) ∧
    (∀ cs c, c.isOpen = false →
      getRedisClient none cs (some c) = (.configError, some c)) ∧
    (∀ r, r ≤ 3 → reconnectStrategy r = .ok (min (r * 100) 3000)) ∧
    (∀ r, r > 3 → reconnectStrategy r = .error "Redis reconnection failed") ∧
    (∀ u, getRedisClient (some u) false none = (.connectError, none)) ∧
    (∀ u c, c.isOpen = false →
      getRedisClient (some u) false (some c) = (.connectError, none)) := by
  refine ⟨?_, ?_, ?_, ?_, ?_, ?_, ?_⟩
  · intro url cs c h
    simp [getRedisClient, h]
  · intro cs
    rfl
  · intro cs c h
    simp [getRedisClient, h, connectFresh]
  · intro r h
    simp [reconnectStrategy]
    omega
  · intro r h
    simp [reconnectStrategy]
    omega
  · intro u
    rfl
  · intro u c h
    simp [getRedisClient, h, connectFresh]

/-- Witness for C9 at concrete handles and retry counts. -/
theorem getRedisClient_spec_witness :
    getRedisClient (some "redis://h") true (some { isOpen := true }) =
      (.ok { isOpen := true }, some { isOpen := true }) ∧
    getRedisClient none true none = (.configError, none) ∧
    getRedisClient none true (some { isOpen := false }) =
      (.configError, some { isOpen := false }) ∧
    reconnectStrategy 2 = .ok (min (2 * 100) 3000) ∧
    reconnectStrategy 4 = .error "Redis reconnection failed" ∧
    getRedisClient (some "redis://h") false none = (.connectError, none) ∧
    getRedisClient (some "redis://h") false (some { isOpen := false }) =
      (.connectError, none) :=
  ⟨getRedisClient_spec.1 (some "redis://h") true { isOpen := true } rfl,
   getRedisClient_spec.2.1 true,
   getRedisClient_spec.2.2.1 true { isOpen := false } rfl,
   getRedisClient_spec.2.2.2.1 2 (by decide),
   getRedisClient_spec.2.2.2.2.1 4 (by decide),
   getRedisClient_spec.2.2.2.2.2.1 "redis://h",
   getRedisClient_spec.2.2.2.2.2.2 "redis://h" { isOpen := false } rfl⟩

/-- C4: for a POST webhook request, a missing configured shared secret
yields a 500 configuration response with the stored list untouched, and a
failed signature verification yields 401 with no email record written —
the payload is only ever parsed or persisted through the `some event`
branch of the verifier. -/
theorem inboundHandler_rejects_unverified (env : InboundEnv)
    (req : InboundRequest) (store : List String)
    (hm : req.method = "POST") :
    (env.webhookSecret = none →
      inboundHandler env req store = ({ status := 500 }, store)) ∧
    (∀ secret, env.webhookSecret = some secret →
      env.verify req.rawBody req.svixId req.svixTimestamp req.svixSignature
        secret = none →
      inboundHandler env req store = ({ status := 401 }, store)) := by
  constructor
  · intro h
    simp [inboundHandler, hm, h]
  · intro secret hs hv
    simp [inboundHandler, hm, hs, hv]

/-- Witness for C4: the rejecting environment leaves a one-element store
untouched and answers 401; the secretless environment answers 500. -/
theorem inboundHandler_rejects_unverified_witness :
    inboundHandler demoEnvRejecting demoRequest ["A"] = ({ status := 401 }, ["A"]) ∧
    inboundHandler { demoEnvRejecting with webhookSecret := none } demoRequest ["A"] =
      ({ status := 500 }, ["A"]) :=
  ⟨(inboundHandler_rejects_unverified demoEnvRejecting demoRequest ["A"] rfl).2
      "whsec" rfl rfl,
   (inboundHandler_rejects_unverified
      { demoEnvRejecting with webhookSecret := none } demoRequest ["A"] rfl).1 rfl⟩

/-- C1 (counterexample to the claimed newest-first order): after appending
record A and then record B via `lPush` (so the stored list is `["B", "A"]`
with the most recent at the head), the read pipeline of `getEmailsHandler`
— which reverses the head-first `lRange` read at line 154 — returns
`[recA, recB]`: the most recently appended record comes LAST, not first,
and the two records are distinct so the order is observable. -/
theorem getEmails_returns_oldest_first :
    getEmailsBody demoParse (.list (lPush "B" (lPush "A" []))) =
      .ok [recA, recB] ∧ recA ≠ recB := by
  constructor
  · rfl
  · decide

/-- A `filterMap` whose function succeeds on every element keeps the
length. -/
theorem length_filterMap_of_isSome {α β : Type} (f : α → Option β)
    (l : List α) (h : ∀ s ∈ l, (f s).isSome) :
    (l.filterMap f).length = l.length := by
  induction l with
  | nil => rfl
  | cons x xs ih =>
    obtain ⟨y, hy⟩ := Option.isSome_iff_exists.mp (h x (List.mem_cons_self x xs))
    simp [List.filterMap_cons, hy,
      ih (fun s hs => h s (List.mem_cons_of_mem _ hs))]

/-- C6: the list read never fails on store- or record-shape problems: an
absent key, an empty list, and the store's WRONGTYPE error all read as an
empty result rather than an error, and a stored list holding one
non-deserializable entry among deserializable ones drops just that entry
and returns the remaining records without raising (so with `N` valid
entries the result has exactly `N` records). -/
theorem getEmailsBody_robust (parse : String → Option EmailRecord) :
    getEmailsBody parse .missing = .ok [] ∧
    getEmailsBody parse (.list []) = .ok [] ∧
    getEmailsBody parse .wrongType = .ok [] ∧
    (∀ v₁ m v₂, parse m = none → (v₁ ++ m :: v₂).length ≤ 100 →
      getEmailsBody parse (.list (v₁ ++ m :: v₂)) =
        .ok (((v₁ ++ v₂).filterMap parse).reverse) ∧
      ((∀ s ∈ v₁ ++ v₂, (parse s).isSome) →
        (((v₁ ++ v₂).filterMap parse).reverse).length = (v₁ ++ v₂).length)) := by
  refine ⟨rfl, rfl, rfl, ?_⟩
  intro v₁ m v₂ hm hlen
  have hfetch : fetchEmails (.list (v₁ ++ m :: v₂)) = .ok (v₁ ++ m :: v₂) := by
    simp [fetchEmails, lRangeEmails, List.take_of_length_le hlen]
  constructor
  · simp only [getEmailsBody, hfetch, Except.map, parsedEmails]
    rw [List.filterMap_map]
    simp [Function.id_comp, List.filterMap_append, List.filterMap_cons, hm]
  · intro hv
    rw [List.length_reverse]
    exact length_filterMap_of_isSome parse _ hv

/-- Witness for C6: a three-element stored list whose middle entry is
malformed yields exactly the two valid records. -/
theorem getEmailsBody_robust_witness :
    getEmailsBody demoParse (.list (["A"] ++ "bad" :: ["B"])) =
      .ok (((["A"] ++ ["B"]).filterMap demoParse).reverse) ∧
    (((["A"] ++ ["B"]).filterMap demoParse).reverse).length =
      (["A"] ++ ["B"]).length :=
  have h := (getEmailsBody_robust demoParse).2.2.2 ["A"] "bad" ["B"]
    (by decide) (by decide)
  ⟨h.1, h.2 (by decide)⟩

/-! Step lemmas for `checkRateLimit`, one per branch of the source. -/

/-- A live window with spare budget: the count is incremented and the
request allowed. -/
theorem checkRateLimit_increment (windowMs maxReq t c R : Nat)
    (hlive : t ≤ R) (hc : c < maxReq) :
    checkRateLimit windowMs maxReq t (some ⟨c, R⟩) =
      ({ allowed := true, remaining := maxReq - (c + 1), resetTime := R,
         retryAfter := none }, some ⟨c + 1, R⟩) := by
  have h1 : ¬ (R < t) := Nat.not_lt.mpr hlive
  have h2 : ¬ (c ≥ maxReq) := Nat.not_le.mpr hc
  simp [checkRateLimit, cleanupRecord, h1, h2]

/-- A live window at the limit: the request is rejected, the record is not
mutated, and `retryAfter` is the ceiling of `(resetTime - now)/1000`. -/
theorem checkRateLimit_reject (windowMs maxReq t c R : Nat)
    (hlive : t ≤ R) (hc : c ≥ maxReq) :
    checkRateLimit windowMs maxReq t (some ⟨c, R⟩) =
      ({ allowed := false, remaining := 0, resetTime := R,
         retryAfter := some ((R - t + 999) / 1000) }, some ⟨c, R⟩) := by
  have h1 : ¬ (R < t) := Nat.not_lt.mpr hlive
  simp [checkRateLimit, cleanupRecord, h1, hc]

/-- An expired window: the record is reset to `count = 1` with a fresh
window and the request allowed. -/
theorem checkRateLimit_expired (windowMs maxReq t c R : Nat) (h : R < t) :
    checkRateLimit windowMs maxReq t (some ⟨c, R⟩) =
      ({ allowed := true, remaining := maxReq - 1, resetTime := t + windowMs,
         retryAfter := none }, some ⟨1, t + windowMs⟩) := by
  simp [checkRateLimit, cleanupRecord, h]

/-- No record yet: one is created with `count = 1` and the request
allowed. -/
theorem checkRateLimit_create (windowMs maxReq t : Nat) :
    checkRateLimit windowMs maxReq t none =
      ({ allowed := true, remaining := maxReq - 1, resetTime := t + windowMs,
         retryAfter := none }, some ⟨1, t + windowMs⟩) := rfl

/-- Requests inside a live window with enough budget are all allowed and
each bumps the count by one. -/
theorem runRequests_live_window (windowMs maxReq : Nat) (ts : List Nat)
    (c R : Nat) (hts : ∀ t ∈ ts, t ≤ R) (hcount : c + ts.length ≤ maxReq) :
    (∀ r ∈ (runRequests windowMs maxReq ts (some ⟨c, R⟩)).1,
      r.allowed = true) ∧
    (runRequests windowMs maxReq ts (some ⟨c, R⟩)).2 =
      some ⟨c + ts.length, R⟩ := by
  induction ts generalizing c with
  | nil => exact ⟨by simp [runRequests], by simp [runRequests]⟩
  | cons t rest ih =>
    have ht : t ≤ R := hts t (List.mem_cons_self t rest)
    have hlt : c < maxReq := by
      have := hcount
      simp only [List.length_cons] at this
      omega
    have hrest : ∀ t' ∈ rest, t' ≤ R :=
      fun t' h' => hts t' (List.mem_cons_of_mem _ h')
    have hcount' : (c + 1) + rest.length ≤ maxReq := by
      have := hcount
      simp only [List.length_cons] at this
      omega
    have hstep := checkRateLimit_increment windowMs maxReq t c R ht hlt
    have hih := ih (c + 1) hrest hcount'
    constructor
    · intro r hr
      simp only [runRequests, hstep] at hr
      rcases List.mem_cons.mp hr with h | h
      · rw [h]
      · exact hih.1 r h
    · simp only [runRequests, hstep]
      rw [hih.2]
      simp only [Option.some.injEq, RateRecord.mk.injEq, List.length_cons,
        and_true]
      omega

/-- C2: for one identity-and-route key with limit `N` in window
`windowMs`: starting from no record, `N` requests inside the window (the
first at `t₀`, the rest at any times not past `t₀ + windowMs`) are all
allowed and leave `count = N`; a further request inside the window is
rejected with `retryAfter` the ceiling of `(windowResetAt - now)/1000`
seconds (in Nat arithmetic, `(reset - now + 999) / 1000`) and does not
mutate the stored record; and a request after the window has expired is
allowed again with the counter reset (`count = 1`, fresh
`windowResetAt`). -/
theorem rateLimit_fixed_window (windowMs N t₀ treject texp : Nat)
    (ts : List Nat) (hN : 0 < N) (hlen : ts.length = N - 1)
    (hts : ∀ t ∈ ts, t ≤ t₀ + windowMs)
    (hrej : treject ≤ t₀ + windowMs)
    (hexp : t₀ + windowMs < texp) :
    (∀ r ∈ (runRequests windowMs N (t₀ :: ts) none).1, r.allowed = true) ∧
    (runRequests windowMs N (t₀ :: ts) none).2 = some ⟨N, t₀ + windowMs⟩ ∧
    checkRateLimit windowMs N treject (some ⟨N, t₀ + windowMs⟩) =
      ({ allowed := false, remaining := 0, resetTime := t₀ + windowMs,
         retryAfter := some ((t₀ + windowMs - treject + 999) / 1000) },
       some ⟨N, t₀ + windowMs⟩) ∧
    checkRateLimit windowMs N texp (some ⟨N, t₀ + windowMs⟩) =
      ({ allowed := true, remaining := N - 1, resetTime := texp + windowMs,
         retryAfter := none }, some ⟨1, texp + windowMs⟩) := by
  have hinv := runRequests_live_window windowMs N ts 1 (t₀ + windowMs) hts
    (by omega)
  have hstep := checkRateLimit_create windowMs N t₀
  refine ⟨?_, ?_, ?_, ?_⟩
  · intro r hr
    simp only [runRequests, hstep] at hr
    rcases List.mem_cons.mp hr with h | h
    · rw [h]
    · exact hinv.1 r h
  · simp only [runRequests, hstep]
    rw [hinv.2]
    simp only [Option.some.injEq, RateRecord.mk.injEq, and_true]
    omega
  · exact checkRateLimit_reject windowMs N treject N (t₀ + windowMs) hrej
      (Nat.le_refl N)
  · exact checkRateLimit_expired windowMs N texp N (t₀ + windowMs) hexp

/-- Witness for C2: limit 2 in a 1000 ms window, requests at 0 and 100,
a rejected third request at 500 (retry after 1 s), and an allowed request
at 2000 after expiry. -/
theorem rateLimit_fixed_window_witness :
    (∀ r ∈ (runRequests 1000 2 (0 :: [100]) none).1, r.allowed = true) ∧
    (runRequests 1000 2 (0 :: [100]) none).2 = some ⟨2, 0 + 1000⟩ ∧
    checkRateLimit 1000 2 500 (some ⟨2, 0 + 1000⟩) =
      ({ allowed := false, remaining := 0, resetTime := 0 + 1000,
         retryAfter := some ((0 + 1000 - 500 + 999) / 1000) },
       some ⟨2, 0 + 1000⟩) ∧
    checkRateLimit 1000 2 2000 (some ⟨2, 0 + 1000⟩) =
      ({ allowed := true, remaining := 2 - 1, resetTime := 2000 + 1000,
         retryAfter := none }, some ⟨1, 2000 + 1000⟩) :=
  rateLimit_fixed_window 1000 2 0 500 2000 [100] (by decide) (by decide)
    (by decide) (by decide) (by decide)

/-- `sendEmailHandler` on an all-present body, reduced through the concrete
method/key/field tests (definitional unfolding of the source pipeline). -/
theorem sendEmailHandler_true_some (toStr subj hh : String) :
    sendEmailHandler true (some toStr) (some subj) (some hh) =
      (if toStr = "" then .validationError "Recipient email address is required."
       else if !isValidEmail toStr then .validationError "Invalid email address format."
       else if subj = "" || jsTrim subj = "" then .validationError "Email subject is required."
       else if isEmptyHTMLStr hh then .validationError "Email body cannot be empty."
       else .send (jsTrim toStr) ⟨(jsTrim subj).data.take 200⟩ hh) := rfl

/-- C8: `sendEmailHandler` validates in order, short-circuiting with a
validation error: it rejects a missing recipient and the malformed
recipient `"not-an-email"` (whatever the later fields hold), rejects a
missing or blank-after-trimming subject, rejects html that is absent,
empty or matches a visually-empty pattern (in particular `"<p></p>"`),
accepts `"<p>hello</p>"`, and every payload that reaches transmission
carries the subject trimmed and truncated to at most 200 characters. -/
theorem sendEmailHandler_spec :
    (∀ s h, sendEmailHandler true none s h =
      .validationError "Recipient email address is required.") ∧
    (∀ s h, sendEmailHandler true (some "not-an-email") s h =
      .validationError "Invalid email address format.") ∧
    (∀ h, sendEmailHandler true (some "a@b.c") none h =
      .validationError "Email subject is required.") ∧
    (∀ subj h, jsTrim subj = "" →
      sendEmailHandler true (some "a@b.c") (some subj) h =
        .validationError "Email subject is required.") ∧
    (∀ k t s h a b c, sendEmailHandler k t s h = .send a b c →
      b.length ≤ 200 ∧ ∀ subj, s = some subj → b = ⟨(jsTrim subj).data.take 200⟩) ∧
    (∀ h, isEmptyHTMLStr h = true →
      sendEmailHandler true (some "a@b.c") (some "hi") (some h) =
        .validationError "Email body cannot be empty.") ∧
    (sendEmailHandler true (some "a@b.c") (some "hi") (some "<p></p>") =
      .validationError "Email body cannot be empty.") ∧
    (sendEmailHandler true (some "a@b.c") (some "hi") (some "<p>hello</p>") =
      .send "a@b.c" "hi" "<p>hello</p>") := by
  have hv : isValidEmail "a@b.c" = true := by decide
  have ht : jsTrim "hi" = "hi" := by decide
  refine ⟨fun s h => rfl, fun s h => rfl, fun h => rfl, ?_, ?_, ?_, rfl, rfl⟩
  · intro subj h htrim
    simp [sendEmailHandler, htrim, hv]
  · intro k t s h a b c heq
    cases k with
    | false => exact SendOutcome.noConfusion heq
    | true =>
      cases t with
      | none => exact SendOutcome.noConfusion heq
      | some toStr =>
        cases s with
        | none =>
          simp only [sendEmailHandler] at heq
          repeat' split at heq
          all_goals exact SendOutcome.noConfusion heq
        | some subj =>
          cases h with
          | none =>
            simp only [sendEmailHandler] at heq
            repeat' split at heq
            all_goals exact SendOutcome.noConfusion heq
          | some hh =>
            rw [sendEmailHandler_true_some] at heq
            repeat' split at heq
            all_goals try exact SendOutcome.noConfusion heq
            rw [SendOutcome.send.injEq] at heq
            refine ⟨?_, ?_⟩
            · rw [← heq.2.1]
              exact List.length_take_le 200 (jsTrim subj).data
            · intro subj' hs
              cases hs
              exact heq.2.1.symm
  · intro h hh
    simp [sendEmailHandler, hh, hv, ht]

/-- Witness for C8 at a blank subject, an extracted send payload, and a
visually-empty body. -/
theorem sendEmailHandler_spec_witness :
    sendEmailHandler true (some "a@b.c") (some "   ") (some "<p>x</p>") =
      .validationError "Email subject is required." ∧
    ("hi" : String).length ≤ 200 ∧
    sendEmailHandler true (some "a@b.c") (some "hi") (some "<p> <br/> </p>") =
      .validationError "Email body cannot be empty." :=
  ⟨sendEmailHandler_spec.2.2.2.1 "   " (some "<p>x</p>") (by decide),
   (sendEmailHandler_spec.2.2.2.2.1 true (some "a@b.c") (some "hi")
      (some "<p>hello</p>") "a@b.c" "hi" "<p>hello</p>"
      sendEmailHandler_spec.2.2.2.2.2.2.2).1,
   sendEmailHandler_spec.2.2.2.2.2.1 "<p> <br/> </p>" (by decide)⟩

/-! Lemmas about trimming and the email regex, for C10. -/

/-- `dropWhile` leaves a list unchanged when its predicate rejects every
element (the head suffices). -/
theorem dropWhile_eq_self_of_not (p : Char → Bool) (cs : List Char)
    (h : ∀ c ∈ cs, p c = false) : cs.dropWhile p = cs := by
  cases cs with
  | nil => rfl
  | cons c rest =>
    simp [List.dropWhile_cons, h c (List.mem_cons_self c rest)]

theorem jsTrimList_eq_self (cs : List Char)
    (h : ∀ c ∈ cs, jsWhitespaceChar c = false) : jsTrimList cs = cs := by
  unfold jsTrimList trimLeading
  rw [dropWhile_eq_self_of_not _ cs h,
    dropWhile_eq_self_of_not _ cs.reverse (fun c hc => h c (List.mem_reverse.mp hc)),
    List.reverse_reverse]

theorem jsTrim_eq_self (s : String)
    (h : ∀ c ∈ s.data, jsWhitespaceChar c = false) : jsTrim s = s := by
  unfold jsTrim
  rw [jsTrimList_eq_self s.data h]

/-- `splitAtAmp` finds the first `'@'`. -/
theorem splitAtAmp_append (l r : List Char) (h : '@' ∉ l) :
    splitAtAmp (l ++ '@' :: r) = some (l, r) := by
  induction l with
  | nil => simp [splitAtAmp]
  | cons c cs ih =>
    have hc : ¬ (c = '@') := fun he => h (he ▸ List.mem_cons_self c cs)
    have hcs : '@' ∉ cs := fun hm => h (List.mem_cons_of_mem c hm)
    simp [splitAtAmp, hc, ih hcs]

theorem okEmailChar_not_ws (c : Char) (h : okEmailChar c = true) :
    jsWhitespaceChar c = false := by
  unfold okEmailChar at h
  simp only [Bool.and_eq_true, Bool.not_eq_eq_eq_not, Bool.not_true] at h
  exact h.1

theorem okEmailChar_not_amp (c : Char) (h : okEmailChar c = true) :
    c ≠ '@' := by
  unfold okEmailChar at h
  simp only [Bool.and_eq_true, decide_eq_true_eq] at h
  exact h.2

theorem jsTrimList_space_cons (cs : List Char) :
    jsTrimList (' ' :: cs) = jsTrimList cs := by
  unfold jsTrimList trimLeading
  rw [List.dropWhile_cons]
  simp [show jsWhitespaceChar ' ' = true from rfl]

theorem jsTrimList_append_space (cs : List Char) :
    jsTrimList (cs ++ [' ']) = jsTrimList cs := by
  unfold jsTrimList trimLeading
  rw [List.dropWhile_append]
  by_cases hcase : (cs.dropWhile jsWhitespaceChar).isEmpty
  · rw [if_pos hcase]
    rw [List.isEmpty_iff.mp hcase]
    rfl
  · rw [if_neg hcase]
    rw [List.reverse_append]
    show (List.dropWhile jsWhitespaceChar
      ([' '].reverse ++ (cs.dropWhile jsWhitespaceChar).reverse)).reverse = _
    rw [List.dropWhile_append]
    simp [show jsWhitespaceChar ' ' = true from rfl]

/-- Padding a string with a leading and trailing space does not change the
email check: the address is trimmed before the regex is applied. -/
theorem isValidEmail_pad (s : String) :
    isValidEmail (" " ++ s ++ " ") = isValidEmail s := by
  unfold isValidEmail
  have hne : ¬ (" " ++ s ++ " " = "") := by
    intro he
    have := congrArg String.data he
    simp [String.data_append] at this
  rw [if_neg hne]
  by_cases hs : s = ""
  · subst hs
    decide
  · rw [if_neg hs]
    have hdt : (jsTrim (" " ++ s ++ " ")).data = (jsTrim s).data := by
      show jsTrimList (" " ++ s ++ " ").data = jsTrimList s.data
      have hdata : (" " ++ s ++ " ").data = ' ' :: (s.data ++ [' ']) := by
        simp [String.data_append]
      rw [hdata, jsTrimList_space_cons, jsTrimList_append_space]
    rw [hdt]

/-- C10: the recipient check requires a dot in the domain part: any
`local@domain` address whose domain holds no `'.'` (for example `"a@b"`)
fails `isValidEmail` — and `sendEmailHandler` rejects it with the
invalid-format validation error — even though the surrounding whitespace
is trimmed off before the check and the address has the basic
`local@domain` shape. -/
theorem isValidEmail_requires_domain_dot (l d : String)
    (_hl : l ≠ "") (_hd : d ≠ "")
    (hlc : ∀ c ∈ l.data, okEmailChar c = true)
    (hdc : ∀ c ∈ d.data, okEmailChar c = true)
    (hdot : '.' ∉ d.data) :
    isValidEmail (l ++ "@" ++ d) = false ∧
    (∀ s : String, isValidEmail (" " ++ s ++ " ") = isValidEmail s) ∧
    isValidEmail "a@b" = false ∧
    (∀ s h, sendEmailHandler true (some "a@b") s h =
      .validationError "Invalid email address format.") := by
  refine ⟨?_, isValidEmail_pad, by decide, fun s h => rfl⟩
  have hdata : (l ++ "@" ++ d).data = l.data ++ '@' :: d.data := by
    simp [String.data_append]
  have hnws : ∀ c ∈ (l ++ "@" ++ d).data, jsWhitespaceChar c = false := by
    rw [hdata]
    intro c hc
    rcases List.mem_append.mp hc with h1 | h2
    · exact okEmailChar_not_ws c (hlc c h1)
    · rcases List.mem_cons.mp h2 with rfl | h3
      · rfl
      · exact okEmailChar_not_ws c (hdc c h3)
  have hne : ¬ (l ++ "@" ++ d = "") := by
    intro he
    have := congrArg String.data he
    rw [hdata] at this
    simp at this
  unfold isValidEmail
  rw [if_neg hne, jsTrim_eq_self _ hnws, hdata]
  unfold emailRegexTest
  have hamp : '@' ∉ l.data := fun hm => okEmailChar_not_amp '@' (hlc '@' hm) rfl
  rw [splitAtAmp_append l.data d.data hamp]
  have hsub : List.Sublist (d.data.tail.dropLast) d.data :=
    (List.dropLast_sublist d.data.tail).trans (List.tail_sublist d.data)
  simp
  intro _ _ _ _ hm
  exact hdot (List.Sublist.mem hm hsub)

/-- Witness for C10 at `l = "a"`, `d = "b"`. -/
theorem isValidEmail_requires_domain_dot_witness :
    isValidEmail ("a" ++ "@" ++ "b") = false ∧
    (∀ s : String, isValidEmail (" " ++ s ++ " ") = isValidEmail s) ∧
    isValidEmail "a@b" = false ∧
    (∀ s h, sendEmailHandler true (some "a@b") s h =
      .validationError "Invalid email address format.") :=
  isValidEmail_requires_domain_dot "a" "b" (by decide) (by decide)
    (by decide) (by decide) (by decide)

end WarmthlyAdmin
